import Mathlib

/-!
A shallow embedding of `contrib/fuzz/container_fuzzer.go`.

The fuzz driver talks to three collaborators whose code is not part of the
driver: the byte-stream decoder (`fuzz.ConsumeFuzzer`), the daemon handle
`ctrd` together with the operating system, and the containerd client API.

* The decoder is a record of functions over an abstract decoder state.
* Every call that leaves the driver is written to a log of `Call`s, in the
  order in which the Go code makes them.  The collaborators on the other side
  are deterministic but arbitrary: the answer to a call is a function of the
  log of all calls made before it (`Env`).  Calls whose result the Go code
  throws away need no answer, only a log entry.
* Each embedded function takes the log `h` of the calls made before it was
  entered and returns the calls it made itself.
* Go `int` values are `Int`; Go's `%` is the truncating remainder `Int.tmod`
  (the sign follows the dividend).  No arithmetic in this file can overflow
  64 bits: the only operations are `%` by small positive constants and by a
  slice length.
* A Go runtime panic is an explicit result (`Res.panic`, status `none`).
-/

namespace ContainerFuzzer

/-- Go `[]byte`. -/
abbrev Bytes := List UInt8

/-- A Go `error` value: the text of `Error()` and whether its dynamic type
is `*exec.ExitError` (the only type assertion the driver makes). -/
structure GoError where
  text : String
  isExitError : Bool
  deriving DecidableEq, Repr

/-- Handle of a `containerd.Image`. -/
structure Image where
  handle : Nat
  deriving DecidableEq, Repr

/-- Handle of a `containerd.Container`. -/
structure Container where
  handle : Nat
  deriving DecidableEq, Repr

/-- An `oci.Spec` filled in by the decoder. -/
structure Spec where
  content : Bytes
  deriving DecidableEq, Repr

/-- Result of a Go function returning `(value, error)` that may also panic. -/
inductive Res (α : Type) where
  | ok (a : α)
  | err (e : GoError)
  | panic (msg : String)
  deriving DecidableEq, Repr

/-- Does `sub` occur in `s` (on character lists). -/
def containsChars : List Char → List Char → Bool
  | [], sub => sub.isEmpty
  | c :: cs, sub => sub.isPrefixOf (c :: cs) || containsChars cs sub

/-- Go `strings.Contains`. -/
def stringsContains (s sub : String) : Bool :=
  containsChars s.toList sub.toList

/-- The calls the driver makes on its collaborators.  A fallible call whose
result the driver inspects carries that result. -/
inductive Call where
  /-- Go `testContext(nil)` -/
  | testContext
  /-- The deferred `cancel()` of `doFuzz` -/
  | cancel
  /-- Go `ioutil.TempFile("", "")` -/
  | tempFile (err : Option GoError)
  /-- Go `stdioFile.Close()` -/
  | closeFile
  /-- Go `os.Remove(stdioFile.Name())` -/
  | removeFile
  /-- Go `createShimDebugConfig()` -/
  | createShimDebugConfig
  /-- Go `ctrd.start(...)` -/
  | start (err : Option GoError)
  /-- Go `fmt.Fprintf(os.Stderr, ...)` -/
  | stderrPrint
  /-- Go `ctrd.waitForStart(waitCtx)` -/
  | waitForStart (err : Option GoError)
  /-- Go `waitCancel()` -/
  | waitCancel
  /-- Go `ctrd.Stop()` -/
  | stop (err : Option GoError)
  /-- Go `ctrd.Kill()` -/
  | kill (err : Option GoError)
  /-- Go `ctrd.Wait()` -/
  | wait (err : Option GoError)
  /-- Go `sys.ForceRemoveAll(defaultRoot)` -/
  | forceRemoveAll (err : Option GoError)
  /-- Go `os.Remove("/run/containerd-test/containerd.sock")` -/
  | removeSocket (err : Option GoError)
  /-- Go `containerd.New(address)` -/
  | connect (err : Option GoError)
  /-- Go `client.Close()` -/
  | close
  /-- Go `client.Import(ctx, bytes.NewReader(tarBytes))` -/
  | importArchive (tar : Bytes)
  /-- Go `client.ListImages(...)`; `images = none` when it returned an error -/
  | listImages (images : Option (List Image))
  /-- Go `image.Size(ctx)` -/
  | imageSize (image : Image)
  /-- Go `image.IsUnpacked(ctx, testSnapshotter)` -/
  | isUnpacked (image : Image)
  /-- Go `image.Unpack(ctx, testSnapshotter)` -/
  | unpack (image : Image)
  /-- Go `client.NewContainer(ctx, id, opts...)`: `image` is the argument of
  `WithImage`, `spec` the argument of `WithSpec`, when the option is passed;
  `result = none` when the call returned an error -/
  | clientNewContainer (id : String) (image : Option Image) (spec : Option Spec)
      (result : Option Container)
  /-- The Go function `newContainer` returned to `doFuzz`; `made = none` when
  it returned an error -/
  | newContainerReturned (made : Option Container)
  /-- Go `container.Delete(ctx, opts...)`; `snapshotCleanup` tells whether
  `containerd.WithSnapshotCleanup` is passed -/
  | delete (c : Container) (snapshotCleanup : Bool)
  deriving DecidableEq, Repr

/-- The collaborators behind the calls: each answer is a function of the log
of the calls made so far (and of the arguments of the call). -/
structure Env where
  /-- Go `ctrd.cmd == nil` -/
  cmdIsNil : List Call → Bool
  tempFile : List Call → Option GoError
  start : List Call → Option GoError
  waitForStart : List Call → Option GoError
  stop : List Call → Option GoError
  kill : List Call → Option GoError
  wait : List Call → Option GoError
  forceRemoveAll : List Call → Option GoError
  removeSocket : List Call → Option GoError
  connect : List Call → Option GoError
  listImages : List Call → Except GoError (List Image)
  isUnpacked : List Call → Image → Except GoError Bool
  newContainer : List Call → String → Option Image → Option Spec → Except GoError Container

/-- The interface of `fuzz.ConsumeFuzzer` over a decoder state `σ`.  Every
operation returns its result (or an error, which is how the decoder reports
that the input is used up) and the next decoder state. -/
structure Decoder (σ : Type) where
  /-- Go `fuzz.NewConsumer(data)` -/
  newConsumer : Bytes → σ
  getInt : σ → Except GoError Int × σ
  getBool : σ → Except GoError Bool × σ
  getString : σ → Except GoError String × σ
  /-- Go `f.GenerateStruct(spec)` on a fresh `oci.Spec` -/
  generateStruct : σ → Except GoError Spec × σ
  tarBytes : σ → Except GoError Bytes × σ

/-- View an optional result as the `Option` stored in the log. -/
def okOf {α : Type} : Except GoError α → Option α
  | .ok a => some a
  | .error _ => none

/-- Go `tearDown` (lines 49-65): the returned error (`none` is `nil`) and
the calls made. -/
def tearDown (env : Env) (h : List Call) : Option GoError × List Call :=
  -- if err := ctrd.Stop(); err != nil { if err := ctrd.Kill(); err != nil { return err } }
  let stopErr := env.stop h
  let c1 := [Call.stop stopErr]
  let killErr := if stopErr.isSome then env.kill (h ++ c1) else none
  let c2 := if stopErr.isSome then c1 ++ [Call.kill killErr] else c1
  if killErr.isSome then (killErr, c2) else
  -- if err := ctrd.Wait(); err != nil { if _, ok := err.(*exec.ExitError); !ok { return err } }
  let waitErr := env.wait (h ++ c2)
  let c3 := c2 ++ [Call.wait waitErr]
  let fatal := match waitErr with
    | some e => !e.isExitError
    | none => false
  if fatal then (waitErr, c3) else
  -- if err := sys.ForceRemoveAll(defaultRoot); err != nil { return err }; return nil
  let rmErr := env.forceRemoveAll (h ++ c3)
  (rmErr, c3 ++ [Call.forceRemoveAll rmErr])

/-- Go `deleteSocket` (lines 132-138). -/
def deleteSocket (env : Env) (h : List Call) : Option GoError × List Call :=
  let err := env.removeSocket h
  (err, [Call.removeSocket err])

/-- Go `checkIfShouldRestart` (lines 71-75); the result of `deleteSocket` is
dropped. -/
def checkIfShouldRestart (env : Env) (h : List Call) (err : GoError) : List Call :=
  if stringsContains err.text "daemon is not running" then (deleteSocket env h).2 else []

/-- Go `startDaemon` (lines 78-126): whether it panicked, and the calls made.
The two `defer`s belong to `startDaemon` itself, so they run when
`startDaemon` returns: first the teardown closure (registered last, only when
`shouldTearDown`), then the cleanup of the temporary file. -/
def startDaemon (env : Env) (h : List Call) (shouldTearDown : Bool) : Bool × List Call :=
  let tmpErr := env.tempFile h
  let c0 := [Call.tempFile tmpErr]
  -- panic(err): no defer is registered yet
  if tmpErr.isSome then (true, c0) else
  let c1 := c0 ++ [Call.createShimDebugConfig]
  let startErr := env.start (h ++ c1)
  let c2 := c1 ++ [Call.start startErr]
  let c3 := match startErr with
    | some e => if !stringsContains e.text "daemon is already running" then c2 ++ [Call.stderrPrint] else c2
    | none => c2
  let waitErr := env.waitForStart (h ++ c3)
  let c4 := c3 ++ [Call.waitForStart waitErr, Call.waitCancel]
  let c5 := if waitErr.isSome then
      let s := env.stop (h ++ c4)
      let k := env.kill (h ++ c4 ++ [Call.stop s])
      let w := env.wait (h ++ c4 ++ [Call.stop s, Call.kill k])
      c4 ++ [Call.stop s, Call.kill k, Call.wait w, Call.stderrPrint]
    else c4
  -- deferred: err = tearDown(); if err != nil { checkIfShouldRestart(err) }
  let c6 := if shouldTearDown then
      let td := tearDown env (h ++ c5)
      match td.1 with
      | some e => c5 ++ td.2 ++ checkIfShouldRestart env (h ++ c5 ++ td.2) e
      | none => c5 ++ td.2
    else c5
  -- deferred: stdioFile.Close(); os.Remove(stdioFile.Name())
  (false, c6 ++ [Call.closeFile, Call.removeFile])

/-- Go `checkAndDoUnpack` (lines 163-171): the next decoder state and the
calls made. -/
def checkAndDoUnpack {σ : Type} (env : Env) (dec : Decoder σ) (image : Image) (f : σ)
    (h : List Call) : σ × List Call :=
  let c1 := [Call.isUnpacked image]
  match env.isUnpacked h image with
  | .ok true =>
    match dec.getBool f with
    | (.ok true, f1) => (f1, c1 ++ [Call.unpack image])
    | (_, f1) => (f1, c1)
  | _ => (f, c1)

/-- Go `getImage` (lines 175-187).  `imageIndex%len(images)` panics when the
slice is empty (integer division by zero), and indexing the slice panics when
the remainder is negative. -/
def getImage {σ : Type} (env : Env) (dec : Decoder σ) (f : σ) (h : List Call) :
    Res Image × σ × List Call :=
  match env.listImages h with
  | .error e => (Res.err e, f, [Call.listImages none])
  | .ok images =>
    let c1 := [Call.listImages (some images)]
    match dec.getInt f with
    | (.error e, f1) => (Res.err e, f1, c1)
    | (.ok imageIndex, f1) =>
      if images.length = 0 then (Res.panic "integer divide by zero", f1, c1)
      else
        let k := Int.tmod imageIndex (images.length : Int)
        if k < 0 then (Res.panic "index out of range", f1, c1)
        else
          match images.get? k.toNat with
          | some image => (Res.ok image, f1, c1)
          | none => (Res.panic "index out of range", f1, c1)

/-- Lift the result of `client.NewContainer` to what `newContainer` returns. -/
def resOf {α : Type} : Except GoError α → Res α
  | .ok a => Res.ok a
  | .error e => Res.err e

/-- Go `newContainer` (lines 191-259): the result, the next decoder state and
the calls made.  The trailing `return nil, errors.New(...)` of the Go
function follows an `if`/`else` chain whose every branch returns. -/
def newContainer {σ : Type} (env : Env) (dec : Decoder σ) (f : σ) (h : List Call) :
    Res Container × σ × List Call :=
  match dec.getInt f with
  | (.error e, f1) => (Res.err e, f1, [])
  | (.ok determiner, f1) =>
    match dec.getString f1 with
    | (.error e, f2) => (Res.err e, f2, [])
    | (.ok id, f2) =>
      if Int.tmod determiner 1 = 0 then
        -- Create a container with oci specs
        match dec.generateStruct f2 with
        | (.error e, f3) => (Res.err e, f3, [])
        | (.ok spec, f3) =>
          let r := env.newContainer h id none (some spec)
          (resOf r, f3, [Call.clientNewContainer id none (some spec) (okOf r)])
      else if Int.tmod determiner 2 = 0 then
        -- Create a container with fuzzed oci specs and an image
        match getImage env dec f2 h with
        | (Res.err e, f3, c1) => (Res.err e, f3, c1)
        | (Res.panic m, f3, c1) => (Res.panic m, f3, c1)
        | (Res.ok image, f3, c1) =>
          let c2 := c1 ++ [Call.imageSize image]
          let u := checkAndDoUnpack env dec image f3 (h ++ c2)
          let c3 := c2 ++ u.2
          match dec.generateStruct u.1 with
          | (.error e, f5) => (Res.err e, f5, c3)
          | (.ok spec, f5) =>
            let r := env.newContainer (h ++ c3) id (some image) (some spec)
            (resOf r, f5, c3 ++ [Call.clientNewContainer id (some image) (some spec) (okOf r)])
      else
        -- Create a container with an image
        match getImage env dec f2 h with
        | (Res.err e, f3, c1) => (Res.err e, f3, c1)
        | (Res.panic m, f3, c1) => (Res.panic m, f3, c1)
        | (Res.ok image, f3, c1) =>
          let c2 := c1 ++ [Call.imageSize image]
          let u := checkAndDoUnpack env dec image f3 (h ++ c2)
          let c3 := c2 ++ u.2
          let r := env.newContainer (h ++ c3) id (some image) none
          (resOf r, u.1, c3 ++ [Call.clientNewContainer id (some image) none (okOf r)])

/-- The import loop of `doFuzz` (lines 294-302), `n` iterations left:
whether the loop ran to its end (`false`: `TarBytes` failed and `doFuzz`
returns 0), the next decoder state and the calls made. -/
def importLoop {σ : Type} (dec : Decoder σ) : Nat → σ → Bool × σ × List Call
  | 0, f => (true, f, [])
  | n + 1, f =>
    match dec.tarBytes f with
    | (.error _, f1) => (false, f1, [])
    | (.ok tarBytes, f1) =>
      let r := importLoop dec n f1
      (r.1, r.2.1, Call.importArchive tarBytes :: r.2.2)

/-- The container loop of `doFuzz` (lines 318-323), `n` iterations left.
`deferred` is the stack of containers whose `Delete` has been deferred, the
latest on top.  Returns whether `newContainer` panicked, the next decoder
state, the calls made and the stack of deferred deletions. -/
def containerLoop {σ : Type} (env : Env) (dec : Decoder σ) :
    Nat → σ → List Call → List Container → Bool × σ × List Call × List Container
  | 0, f, _, deferred => (false, f, [], deferred)
  | n + 1, f, h, deferred =>
    match newContainer env dec f h with
    | (Res.panic _, f1, c1) => (true, f1, c1, deferred)
    | (Res.err _, f1, c1) =>
      let c2 := c1 ++ [Call.newContainerReturned none]
      let r := containerLoop env dec n f1 (h ++ c2) deferred
      (r.1, r.2.1, c2 ++ r.2.2.1, r.2.2.2)
    | (Res.ok container, f1, c1) =>
      let c2 := c1 ++ [Call.newContainerReturned (some container)]
      let r := containerLoop env dec n f1 (h ++ c2) (container :: deferred)
      (r.1, r.2.1, c2 ++ r.2.2.1, r.2.2.2)

/-- Number of iterations of `for i := 0; i < bound; i++`. -/
def iterations (bound : Int) : Nat := bound.toNat

/-- Lines 285-327 of `doFuzz` without the deferred calls: the status
(`none` after a panic), the calls made and the stack of deferred
deletions. -/
def fuzzBody {σ : Type} (env : Env) (dec : Decoder σ) (f : σ) (h : List Call) :
    Option Int × List Call × List Container :=
  -- Begin import tars
  match dec.getInt f with
  | (.error _, _) => (some 0, [], [])
  | (.ok noOfImports, f1) =>
    let maxImports : Int := 30
    let imp := importLoop dec (iterations (Int.tmod noOfImports maxImports)) f1
    if !imp.1 then (some 0, imp.2.2, []) else
    -- Begin create containers
    let c1 := imp.2.2
    match env.listImages (h ++ c1) with
    | .error _ => (some 0, c1 ++ [Call.listImages none], [])
    | .ok existingImages =>
      let c2 := c1 ++ [Call.listImages (some existingImages)]
      if existingImages.length > 0 then
        match dec.getInt imp.2.1 with
        | (.error _, _) => (some 0, c2, [])
        | (.ok noOfContainers, f3) =>
          let maxNoOfContainers : Int := 50
          let r := containerLoop env dec (iterations (Int.tmod noOfContainers maxNoOfContainers))
            f3 (h ++ c2) []
          (if r.1 then none else some 1, c2 ++ r.2.2.1, r.2.2.2)
      else (some 1, c2, [])

/-- What a run of `doFuzz` did: the returned status (`none` when the run ended
in a panic) and the log of all calls, in order. -/
structure Outcome where
  status : Option Int
  calls : List Call
  deriving DecidableEq, Repr

/-- Lines 272-275 of `doFuzz`, entered after `testContext(nil)`:
`if ctrd.cmd == nil { startDaemon(ctx, shouldTearDown) }`.  Whether it
panicked, and the calls made. -/
def lazyStart (env : Env) (shouldTearDown : Bool) : Bool × List Call :=
  if env.cmdIsNil [Call.testContext] then startDaemon env [Call.testContext] shouldTearDown
  else (false, [])

/-- The log at the moment `doFuzz` calls `containerd.New(address)`. -/
def logBeforeConnect (env : Env) (shouldTearDown : Bool) : List Call :=
  Call.testContext :: (lazyStart env shouldTearDown).2

/-- Go `doFuzz` (lines 268-328).  Deferred calls run last-in first-out when
the function returns or panics: the `Delete` of each constructed container
(latest first), then `client.Close()`, then `cancel()`. -/
def doFuzz {σ : Type} (env : Env) (dec : Decoder σ) (data : Bytes) (shouldTearDown : Bool) :
    Outcome :=
  let sd := lazyStart env shouldTearDown
  let h1 := Call.testContext :: sd.2
  if sd.1 then ⟨none, h1 ++ [Call.cancel]⟩ else
  match env.connect h1 with
  | some e =>
    let h2 := h1 ++ [Call.connect (some e)]
    ⟨some (-1), h2 ++ (deleteSocket env h2).2 ++ [Call.cancel]⟩
  | none =>
    let h2 := h1 ++ [Call.connect none]
    let body := fuzzBody env dec (dec.newConsumer data) h2
    ⟨body.1, h2 ++ body.2.1 ++ body.2.2.map (fun c => Call.delete c true)
      ++ [Call.close, Call.cancel]⟩

/-- Go `FuzzCreateContainerNoTearDown`. -/
def FuzzCreateContainerNoTearDown {σ : Type} (env : Env) (dec : Decoder σ) (data : Bytes) :
    Outcome :=
  doFuzz env dec data false

/-- Go `FuzzCreateContainerWithTearDown`. -/
def FuzzCreateContainerWithTearDown {σ : Type} (env : Env) (dec : Decoder σ) (data : Bytes) :
    Outcome :=
  doFuzz env dec data true

/-! ## Observations on a log and on a decoder -/

/-- A `client.Import` call. -/
def Call.isImport : Call → Bool
  | .importArchive _ => true
  | _ => false

/-- A `client.ListImages` call. -/
def Call.isListImages : Call → Bool
  | .listImages _ => true
  | _ => false

/-- A `client.NewContainer` call. -/
def Call.isClientNewContainer : Call → Bool
  | .clientNewContainer _ _ _ _ => true
  | _ => false

/-- A return of the Go function `newContainer`: one per call of it. -/
def Call.isNewContainerReturned : Call → Bool
  | .newContainerReturned _ => true
  | _ => false

/-- A `container.Delete` call. -/
def Call.isDelete : Call → Bool
  | .delete _ _ => true
  | _ => false

/-- A `client.Close` call. -/
def Call.isClose : Call → Bool
  | .close => true
  | _ => false

/-- An attempt to remove the socket path. -/
def Call.isRemoveSocket : Call → Bool
  | .removeSocket _ => true
  | _ => false

/-- A step of the daemon teardown: stop, kill, reap, state-root removal. -/
def Call.isTearDownStep : Call → Bool
  | .stop _ => true
  | .kill _ => true
  | .wait _ => true
  | .forceRemoveAll _ => true
  | _ => false

/-- A call on the client connection, on an image or on a container, or a
return of `newContainer`. -/
def Call.isClientSide : Call → Bool
  | .close => true
  | .importArchive _ => true
  | .listImages _ => true
  | .imageSize _ => true
  | .isUnpacked _ => true
  | .unpack _ => true
  | .clientNewContainer _ _ _ _ => true
  | .newContainerReturned _ => true
  | .delete _ _ => true
  | _ => false

/-- The containers the Go function `newContainer` returned successfully, in
the order of the log. -/
def madeContainers : List Call → List Container
  | [] => []
  | .newContainerReturned (some c) :: cs => c :: madeContainers cs
  | _ :: cs => madeContainers cs

/-- The decoder answers `k - 1` `TarBytes` requests and reports an error on
the `k`-th (`k` counts from 1). -/
def tarBytesFailsAt {σ : Type} (dec : Decoder σ) : Nat → σ → Bool
  | 0, _ => false
  | k + 1, f =>
    match dec.tarBytes f with
    | (.ok _, f1) => tarBytesFailsAt dec k f1
    | (.error _, _) => k == 0

/-! ## Concrete collaborators, for evaluating the driver -/

/-- The error a decoder returns when its input is used up. -/
def eof : GoError := ⟨"not enough bytes", false⟩

/-- A decoder that spends one byte per request; `GetInt` returns `int(b)` for
the next byte `b`. -/
def byteDecoder : Decoder (List UInt8) where
  newConsumer := fun data => data
  getInt := fun s => match s with
    | [] => (.error eof, [])
    | b :: bs => (.ok (b.toNat : Int), bs)
  getBool := fun s => match s with
    | [] => (.error eof, [])
    | b :: bs => (.ok (b.toNat % 2 == 1), bs)
  getString := fun s => match s with
    | [] => (.error eof, [])
    | b :: bs => (.ok (String.mk [Char.ofNat b.toNat]), bs)
  generateStruct := fun s => match s with
    | [] => (.error eof, [])
    | b :: bs => (.ok ⟨[b]⟩, bs)
  tarBytes := fun s => match s with
    | [] => (.error eof, [])
    | b :: bs => (.ok [b], bs)

/-- A healthy daemon that is already running: every call succeeds, one image
is listed, and the n-th container gets the length of the log as handle. -/
def envRunning : Env where
  cmdIsNil := fun _ => false
  tempFile := fun _ => none
  start := fun _ => none
  waitForStart := fun _ => none
  stop := fun _ => none
  kill := fun _ => none
  wait := fun _ => none
  forceRemoveAll := fun _ => none
  removeSocket := fun _ => none
  connect := fun _ => none
  listImages := fun _ => .ok [⟨0⟩]
  isUnpacked := fun _ _ => .ok false
  newContainer := fun h _ _ _ => .ok ⟨h.length⟩

/-- The daemon of `envRunning` before its first start: `ctrd.cmd` is nil. -/
def envFresh : Env := { envRunning with cmdIsNil := fun _ => true }

/-- A running daemon that lists two images. -/
def envTwoImages : Env := { envRunning with listImages := fun _ => .ok [⟨0⟩, ⟨1⟩] }

/-- The error of `ctrd.Stop` and `ctrd.Kill` on a daemon without process. -/
def notRunning : GoError := ⟨"daemon is not running", false⟩

/-- A connection error without the indicator text. -/
def refused : GoError := ⟨"connection refused", false⟩

/-- A daemon that cannot be reached: the connection fails with the indicator
text. -/
def envDown : Env := { envRunning with connect := fun _ => some notRunning }

/-- A daemon whose connection fails without the indicator text. -/
def envRefused : Env := { envRunning with connect := fun _ => some refused }

/-- A running daemon whose state root cannot be removed. -/
def envRootBusy : Env :=
  { envRunning with forceRemoveAll := fun _ => some ⟨"device or resource busy", false⟩ }

/-- A daemon without process: `Stop` and `Kill` report that it is not
running. -/
def envNoProcess : Env :=
  { envRunning with
    stop := fun _ => some notRunning
    kill := fun _ => some notRunning }

/-- A daemon whose process has exited with a non-zero status: `Wait` returns
an `*exec.ExitError`. -/
def envExited : Env := { envRunning with wait := fun _ => some ⟨"exit status 2", true⟩ }

/-! ## Lemmas on the pieces of the driver -/

/-- The selector arithmetic: `determiner % 1 == 0` holds for every value, so
`newContainer` is its first branch. -/
theorem newContainer_eq_first_branch {σ : Type} (env : Env) (dec : Decoder σ) (f : σ)
    (h : List Call) :
    newContainer env dec f h =
      match dec.getInt f with
      | (.error e, f1) => (Res.err e, f1, [])
      | (.ok _, f1) =>
        match dec.getString f1 with
        | (.error e, f2) => (Res.err e, f2, [])
        | (.ok id, f2) =>
          match dec.generateStruct f2 with
          | (.error e, f3) => (Res.err e, f3, [])
          | (.ok spec, f3) =>
            (resOf (env.newContainer h id none (some spec)), f3,
              [Call.clientNewContainer id none (some spec)
                (okOf (env.newContainer h id none (some spec)))]) := by
  unfold newContainer
  split
  · rfl
  · split
    · rfl
    · simp [Int.tmod_one]

/-- The function `newContainer` makes at most one call, a `client.NewContainer`
call, and never panics. -/
theorem newContainer_shape {σ : Type} (env : Env) (dec : Decoder σ) (f : σ) (h : List Call) :
    (∀ c ∈ (newContainer env dec f h).2.2, c.isClientNewContainer = true) ∧
    ∀ m, (newContainer env dec f h).1 ≠ Res.panic m := by
  rw [newContainer_eq_first_branch]
  split
  · simp
  · split
    · simp
    · split
      · simp
      · refine ⟨by simp [Call.isClientNewContainer], ?_⟩
        intro m
        cases env.newContainer h _ none (some _) <;> simp [resOf]

/-- Every call of `tearDown` is a teardown step. -/
theorem tearDown_calls (env : Env) (h : List Call) :
    ∀ c ∈ (tearDown env h).2, c.isTearDownStep = true := by
  intro c hc
  unfold tearDown at hc
  simp only at hc
  split_ifs at hc <;> simp at hc <;> aesop

/-- The calls of `startDaemon` are daemon-side calls, none is made on a
client, an image or a container. -/
theorem startDaemon_calls (env : Env) (h : List Call) (shouldTearDown : Bool) :
    ∀ c ∈ (startDaemon env h shouldTearDown).2, c.isClientSide = false := by
  have htd : ∀ h1, ∀ c ∈ (tearDown env h1).2, c.isClientSide = false := by
    intro h1 c hc
    have := tearDown_calls env h1 c hc
    cases c <;> simp_all [Call.isTearDownStep, Call.isClientSide]
  have hcr : ∀ h1 e, ∀ c ∈ checkIfShouldRestart env h1 e, c.isClientSide = false := by
    intro h1 e c hc
    unfold checkIfShouldRestart deleteSocket at hc
    split_ifs at hc <;> simp at hc
    subst hc; rfl
  unfold startDaemon
  simp only
  repeat' split
  all_goals simp only [List.mem_append, List.mem_cons, List.mem_singleton, List.not_mem_nil,
    or_false, List.append_assoc]
  all_goals intro c hc
  all_goals (try casesm* _ ∨ _)
  all_goals first
    | (subst c; rfl)
    | exact htd _ _ ‹_›
    | exact hcr _ _ _ ‹_›

/-- The lazy start makes daemon-side calls only. -/
theorem lazyStart_calls (env : Env) (shouldTearDown : Bool) :
    ∀ c ∈ (lazyStart env shouldTearDown).2, c.isClientSide = false := by
  unfold lazyStart
  split
  · exact startDaemon_calls env _ _
  · simp

/-- Without the teardown flag `startDaemon` does not touch the socket path. -/
theorem startDaemon_false_no_removeSocket (env : Env) (h : List Call) :
    ∀ c ∈ (startDaemon env h false).2, c.isRemoveSocket = false := by
  unfold startDaemon
  simp only
  repeat' split
  all_goals simp only [List.mem_append, List.mem_cons, List.mem_singleton, List.not_mem_nil,
    or_false, List.append_assoc]
  all_goals intro c hc
  all_goals (try casesm* _ ∨ _)
  all_goals first
    | (subst c; rfl)
    | simp_all

/-- The import loop makes `client.Import` calls only. -/
theorem importLoop_calls {σ : Type} (dec : Decoder σ) (n : Nat) (f : σ) :
    ∃ tars : List Bytes, (importLoop dec n f).2.2 = tars.map Call.importArchive := by
  induction n generalizing f with
  | zero => exact ⟨[], rfl⟩
  | succ n ih =>
    unfold importLoop
    split
    · exact ⟨[], rfl⟩
    · rename_i tar f1 _
      obtain ⟨tars, ht⟩ := ih f1
      exact ⟨tar :: tars, by simp [ht]⟩

/-- When the decoder fails on the `k`-th archive request and the loop has at
least `k` iterations to make, the loop stops after `k - 1` imports. -/
theorem importLoop_of_failsAt {σ : Type} (dec : Decoder σ) (k n : Nat) (f : σ)
    (h : tarBytesFailsAt dec k f = true) (hk : k ≤ n) :
    (importLoop dec n f).1 = false ∧ (importLoop dec n f).2.2.length + 1 = k := by
  induction n generalizing f k with
  | zero =>
    have : k = 0 := by omega
    subst this
    simp [tarBytesFailsAt] at h
  | succ n ih =>
    cases k with
    | zero => simp [tarBytesFailsAt] at h
    | succ k =>
      unfold tarBytesFailsAt at h
      unfold importLoop
      split at h
      · rename_i tar f1 heq
        simp only [heq]
        have := ih k f1 h (by omega)
        simp [this]
      · rename_i e f1 heq
        simp only [heq]
        simpa using h

/-- No container is recorded in a log without a return of `newContainer`. -/
theorem madeContainers_eq_nil (l : List Call)
    (h : ∀ c ∈ l, c.isNewContainerReturned = false) : madeContainers l = [] := by
  induction l with
  | nil => rfl
  | cons a l ih =>
    have ha := h a (by simp)
    have hl := ih (fun c hc => h c (by simp [hc]))
    cases a <;> simp_all [madeContainers, Call.isNewContainerReturned]

theorem madeContainers_append (l1 l2 : List Call) :
    madeContainers (l1 ++ l2) = madeContainers l1 ++ madeContainers l2 := by
  induction l1 with
  | nil => rfl
  | cons a l ih =>
    cases a <;> simp [madeContainers, ih]
    rename_i made
    cases made <;> simp [madeContainers, ih]

theorem clientNewContainer_not_returned (c : Call) (h : c.isClientNewContainer = true) :
    c.isNewContainerReturned = false := by
  cases c <;> simp_all [Call.isClientNewContainer, Call.isNewContainerReturned]

theorem construction_not_cleanup (c : Call)
    (h : c.isClientNewContainer = true ∨ c.isNewContainerReturned = true) :
    c.isDelete = false ∧ c.isClose = false := by
  cases c <;> simp_all [Call.isClientNewContainer, Call.isNewContainerReturned, Call.isDelete,
    Call.isClose]

/-- The container loop never panics, makes every one of its iterations, makes
construction calls only, and defers one deletion per container made, the
latest on top. -/
theorem containerLoop_shape {σ : Type} (env : Env) (dec : Decoder σ) (n : Nat) (f : σ)
    (h : List Call) (deferred : List Container) :
    (containerLoop env dec n f h deferred).1 = false ∧
    (containerLoop env dec n f h deferred).2.2.2 =
      (madeContainers (containerLoop env dec n f h deferred).2.2.1).reverse ++ deferred ∧
    (∀ c ∈ (containerLoop env dec n f h deferred).2.2.1,
      c.isClientNewContainer = true ∨ c.isNewContainerReturned = true) ∧
    (containerLoop env dec n f h deferred).2.2.1.countP Call.isNewContainerReturned = n := by
  induction n generalizing f h deferred with
  | zero => simp [containerLoop, madeContainers]
  | succ n ih =>
    obtain ⟨hcalls, hpanic⟩ := newContainer_shape env dec f h
    have hnot : ∀ c ∈ (newContainer env dec f h).2.2, c.isNewContainerReturned = false :=
      fun c hc => clientNewContainer_not_returned c (hcalls c hc)
    have hnone : madeContainers (newContainer env dec f h).2.2 = [] :=
      madeContainers_eq_nil _ hnot
    have hcount : (newContainer env dec f h).2.2.countP Call.isNewContainerReturned = 0 := by
      rw [List.countP_eq_zero]
      intro c hc
      simp [hnot c hc]
    unfold containerLoop
    split
    · rename_i m f1 c1 heq
      exact absurd (by rw [heq]) (hpanic m)
    · rename_i e f1 c1 heq
      rw [heq] at hcalls hnone hcount
      simp only at hcalls hnone hcount
      obtain ⟨h1, h2, h3, h4⟩ := ih f1 (h ++ (c1 ++ [Call.newContainerReturned none])) deferred
      refine ⟨h1, ?_, ?_, ?_⟩
      · simp only [h2, madeContainers_append, hnone]
        simp [madeContainers]
      · intro c hc
        simp only [List.mem_append, List.mem_singleton] at hc
        rcases hc with (hc | hc) | hc
        · exact Or.inl (hcalls c hc)
        · subst hc; exact Or.inr rfl
        · exact h3 c hc
      · simp only [List.countP_append, hcount, h4]
        simp [Call.isNewContainerReturned]
        omega
    · rename_i container f1 c1 heq
      rw [heq] at hcalls hnone hcount
      simp only at hcalls hnone hcount
      obtain ⟨h1, h2, h3, h4⟩ :=
        ih f1 (h ++ (c1 ++ [Call.newContainerReturned (some container)])) (container :: deferred)
      refine ⟨h1, ?_, ?_, ?_⟩
      · simp only [h2, madeContainers_append, hnone]
        simp [madeContainers]
      · intro c hc
        simp only [List.mem_append, List.mem_singleton] at hc
        rcases hc with (hc | hc) | hc
        · exact Or.inl (hcalls c hc)
        · subst hc; exact Or.inr rfl
        · exact h3 c hc
      · simp only [List.countP_append, hcount, h4]
        simp [Call.isNewContainerReturned]
        omega

/-- The deferred deletions of the body of `doFuzz` are the containers that
`newContainer` returned, the latest first, and the body itself makes no
`Delete` and no `Close` call. -/
theorem fuzzBody_deferred {σ : Type} (env : Env) (dec : Decoder σ) (f : σ) (h : List Call) :
    (fuzzBody env dec f h).2.2 = (madeContainers (fuzzBody env dec f h).2.1).reverse ∧
    ∀ c ∈ (fuzzBody env dec f h).2.1, c.isDelete = false ∧ c.isClose = false := by
  unfold fuzzBody
  split
  · simp [madeContainers]
  · rename_i n f1 _
    obtain ⟨tars, htars⟩ := importLoop_calls dec (iterations (Int.tmod n 30)) f1
    have himp : madeContainers (tars.map Call.importArchive) = [] := by
      apply madeContainers_eq_nil
      intro c hc
      simp only [List.mem_map] at hc
      obtain ⟨t, -, rfl⟩ := hc
      rfl
    have himp2 : ∀ c ∈ tars.map Call.importArchive, c.isDelete = false ∧ c.isClose = false := by
      intro c hc
      simp only [List.mem_map] at hc
      obtain ⟨t, -, rfl⟩ := hc
      exact ⟨rfl, rfl⟩
    simp only [htars]
    split
    · exact ⟨by simp [himp], himp2⟩
    · split
      · refine ⟨by simp [madeContainers_append, himp, madeContainers], ?_⟩
        intro c hc
        simp only [List.mem_append, List.mem_singleton] at hc
        rcases hc with hc | hc
        · exact himp2 c hc
        · subst hc; exact ⟨rfl, rfl⟩
      · rename_i images _
        have hlist : ∀ c ∈ tars.map Call.importArchive ++ [Call.listImages (some images)],
            c.isDelete = false ∧ c.isClose = false := by
          intro c hc
          simp only [List.mem_append, List.mem_singleton] at hc
          rcases hc with hc | hc
          · exact himp2 c hc
          · subst hc; exact ⟨rfl, rfl⟩
        split
        · split
          · exact ⟨by simp [madeContainers_append, himp, madeContainers], hlist⟩
          · rename_i m f3 _
            obtain ⟨-, h2, h3, -⟩ := containerLoop_shape env dec (iterations (Int.tmod m 50)) f3
              (h ++ (tars.map Call.importArchive ++ [Call.listImages (some images)])) []
            refine ⟨by simp [madeContainers_append, himp, madeContainers, h2], ?_⟩
            intro c hc
            simp only [List.mem_append] at hc
            rcases hc with hc | hc
            · exact hlist c (by simpa using hc)
            · exact construction_not_cleanup c (h3 c hc)
        · exact ⟨by simp [madeContainers_append, himp, madeContainers], hlist⟩

/-- A run of `doFuzz` that obtains its client connection. -/
theorem doFuzz_connected {σ : Type} (env : Env) (dec : Decoder σ) (data : Bytes)
    (shouldTearDown : Bool) (hs : (lazyStart env shouldTearDown).1 = false)
    (hc : env.connect (logBeforeConnect env shouldTearDown) = none) :
    doFuzz env dec data shouldTearDown =
      ⟨(fuzzBody env dec (dec.newConsumer data)
          (logBeforeConnect env shouldTearDown ++ [Call.connect none])).1,
        logBeforeConnect env shouldTearDown ++ [Call.connect none] ++
          (fuzzBody env dec (dec.newConsumer data)
            (logBeforeConnect env shouldTearDown ++ [Call.connect none])).2.1 ++
          (fuzzBody env dec (dec.newConsumer data)
            (logBeforeConnect env shouldTearDown ++ [Call.connect none])).2.2.map
              (fun c => Call.delete c true) ++
          [Call.close, Call.cancel]⟩ := by
  unfold doFuzz
  simp only [logBeforeConnect] at hc
  simp [hs, hc, logBeforeConnect]

/-- A run of `doFuzz` whose connection attempt fails. -/
theorem doFuzz_refused {σ : Type} (env : Env) (dec : Decoder σ) (data : Bytes)
    (shouldTearDown : Bool) (e : GoError) (hs : (lazyStart env shouldTearDown).1 = false)
    (hc : env.connect (logBeforeConnect env shouldTearDown) = some e) :
    doFuzz env dec data shouldTearDown =
      ⟨some (-1), logBeforeConnect env shouldTearDown ++
        [Call.connect (some e),
         Call.removeSocket (env.removeSocket
           (logBeforeConnect env shouldTearDown ++ [Call.connect (some e)])),
         Call.cancel]⟩ := by
  unfold doFuzz
  simp only [logBeforeConnect] at hc
  simp [hs, hc, logBeforeConnect, deleteSocket]

/-- No call made before the connection attempt is a client-side call. -/
theorem logBeforeConnect_calls (env : Env) (shouldTearDown : Bool) :
    ∀ c ∈ logBeforeConnect env shouldTearDown, c.isClientSide = false := by
  intro c hc
  simp only [logBeforeConnect, List.mem_cons] at hc
  rcases hc with hc | hc
  · subst hc; rfl
  · exact lazyStart_calls env shouldTearDown c hc

/-- The observed client calls are client-side calls. -/
theorem clientSide_of_observed (c : Call)
    (h : c.isImport = true ∨ c.isListImages = true ∨ c.isClientNewContainer = true ∨
      c.isNewContainerReturned = true ∨ c.isDelete = true ∨ c.isClose = true) :
    c.isClientSide = true := by
  cases c <;> simp_all [Call.isImport, Call.isListImages, Call.isClientNewContainer,
    Call.isNewContainerReturned, Call.isDelete, Call.isClose, Call.isClientSide]

theorem not_observed_of_not_clientSide (c : Call) (h : c.isClientSide = false) :
    c.isNewContainerReturned = false ∧ c.isDelete = false ∧ c.isClose = false := by
  cases c <;> simp_all [Call.isNewContainerReturned, Call.isDelete, Call.isClose,
    Call.isClientSide]

theorem none_observed_of_not_clientSide (c : Call) (h : c.isClientSide = false) :
    c.isImport = false ∧ c.isListImages = false ∧ c.isClientNewContainer = false ∧
    c.isNewContainerReturned = false ∧ c.isDelete = false ∧ c.isClose = false := by
  cases c <;> simp_all [Call.isImport, Call.isListImages, Call.isClientNewContainer,
    Call.isNewContainerReturned, Call.isDelete, Call.isClose, Call.isClientSide]

/-- Nothing that is counted on the client side happens before the connection
attempt. -/
theorem countP_logBeforeConnect (env : Env) (shouldTearDown : Bool) (p : Call → Bool)
    (hp : ∀ c, p c = true → c.isClientSide = true) :
    (logBeforeConnect env shouldTearDown).countP p = 0 := by
  rw [List.countP_eq_zero]
  intro c hc hpc
  have h1 := logBeforeConnect_calls env shouldTearDown c hc
  rw [hp c hpc] at h1
  exact absurd h1 (by simp)

theorem countP_isImport_imports (tars : List Bytes) :
    (tars.map Call.importArchive).countP Call.isImport = tars.length := by
  induction tars with
  | nil => rfl
  | cons t ts ih => simp [List.countP_cons, ih, Call.isImport]

theorem countP_imports_eq_zero (tars : List Bytes) (p : Call → Bool)
    (hp : ∀ t, p (Call.importArchive t) = false) :
    (tars.map Call.importArchive).countP p = 0 := by
  induction tars with
  | nil => rfl
  | cons t ts ih => simp [List.countP_cons, ih, hp]

theorem countP_deletes_eq_zero (cs : List Container) (p : Call → Bool)
    (hp : ∀ c b, p (Call.delete c b) = false) :
    (cs.map (fun c => Call.delete c true)).countP p = 0 := by
  induction cs with
  | nil => rfl
  | cons t ts ih => simp [List.countP_cons, ih, hp]

/-- What is counted in a log that, after the connection, only has imports,
the `Close` and the `cancel`. -/
theorem counts_of_import_only (env : Env) (shouldTearDown : Bool) (tars : List Bytes) :
    (logBeforeConnect env shouldTearDown ++ [Call.connect none] ++
      tars.map Call.importArchive ++ [Call.close, Call.cancel]).countP Call.isImport
        = tars.length ∧
    (logBeforeConnect env shouldTearDown ++ [Call.connect none] ++
      tars.map Call.importArchive ++ [Call.close, Call.cancel]).countP Call.isListImages = 0 ∧
    (logBeforeConnect env shouldTearDown ++ [Call.connect none] ++
      tars.map Call.importArchive ++ [Call.close, Call.cancel]).countP
        Call.isClientNewContainer = 0 ∧
    (logBeforeConnect env shouldTearDown ++ [Call.connect none] ++
      tars.map Call.importArchive ++ [Call.close, Call.cancel]).countP
        Call.isNewContainerReturned = 0 := by
  have h1 := countP_logBeforeConnect env shouldTearDown Call.isImport
    (fun c h => clientSide_of_observed c (Or.inl h))
  have h2 := countP_logBeforeConnect env shouldTearDown Call.isListImages
    (fun c h => clientSide_of_observed c (Or.inr (Or.inl h)))
  have h3 := countP_logBeforeConnect env shouldTearDown Call.isClientNewContainer
    (fun c h => clientSide_of_observed c (Or.inr (Or.inr (Or.inl h))))
  have h4 := countP_logBeforeConnect env shouldTearDown Call.isNewContainerReturned
    (fun c h => clientSide_of_observed c (Or.inr (Or.inr (Or.inr (Or.inl h)))))
  refine ⟨?_, ?_, ?_, ?_⟩
  · simp only [List.countP_append, h1, countP_isImport_imports]
    simp [Call.isImport]
  · simp only [List.countP_append, h2,
      countP_imports_eq_zero tars Call.isListImages (fun _ => rfl)]
    simp [Call.isListImages]
  · simp only [List.countP_append, h3,
      countP_imports_eq_zero tars Call.isClientNewContainer (fun _ => rfl)]
    simp [Call.isClientNewContainer]
  · simp only [List.countP_append, h4,
      countP_imports_eq_zero tars Call.isNewContainerReturned (fun _ => rfl)]
    simp [Call.isNewContainerReturned]

/-- C3. With the connection established: when the decoder fails on the import
count, `doFuzz` returns 0 and has made no call but `Close` (and `cancel`)
after the connection; when the import count is decoded and the decoder fails
on the `k`-th archive of the loop, `doFuzz` returns 0 and, after the
connection, has made `k - 1` imports followed by `Close` and `cancel`.  In
both cases there is no `ListImages` call and no container construction. -/
theorem exhaustion_during_import {σ : Type} (env : Env) (dec : Decoder σ) (data : Bytes)
    (shouldTearDown : Bool) (hs : (lazyStart env shouldTearDown).1 = false)
    (hc : env.connect (logBeforeConnect env shouldTearDown) = none) :
    (∀ e f1, dec.getInt (dec.newConsumer data) = (.error e, f1) →
      doFuzz env dec data shouldTearDown =
        ⟨some 0, logBeforeConnect env shouldTearDown ++
          [Call.connect none, Call.close, Call.cancel]⟩ ∧
      (doFuzz env dec data shouldTearDown).calls.countP Call.isImport = 0 ∧
      (doFuzz env dec data shouldTearDown).calls.countP Call.isListImages = 0 ∧
      (doFuzz env dec data shouldTearDown).calls.countP Call.isClientNewContainer = 0 ∧
      (doFuzz env dec data shouldTearDown).calls.countP Call.isNewContainerReturned = 0) ∧
    (∀ n f1 k, dec.getInt (dec.newConsumer data) = (.ok n, f1) →
      tarBytesFailsAt dec k f1 = true → k ≤ iterations (Int.tmod n 30) →
      (∃ tars : List Bytes, tars.length = k - 1 ∧
        doFuzz env dec data shouldTearDown =
          ⟨some 0, logBeforeConnect env shouldTearDown ++ [Call.connect none] ++
            tars.map Call.importArchive ++ [Call.close, Call.cancel]⟩) ∧
      (doFuzz env dec data shouldTearDown).calls.countP Call.isImport = k - 1 ∧
      (doFuzz env dec data shouldTearDown).calls.countP Call.isListImages = 0 ∧
      (doFuzz env dec data shouldTearDown).calls.countP Call.isClientNewContainer = 0 ∧
      (doFuzz env dec data shouldTearDown).calls.countP Call.isNewContainerReturned = 0) := by
  constructor
  · intro e f1 hi
    have hd : doFuzz env dec data shouldTearDown =
        ⟨some 0, logBeforeConnect env shouldTearDown ++ [Call.connect none] ++
          ([] : List Bytes).map Call.importArchive ++ [Call.close, Call.cancel]⟩ := by
      rw [doFuzz_connected env dec data shouldTearDown hs hc]
      simp [fuzzBody, hi]
    obtain ⟨c1, c2, c3, c4⟩ := counts_of_import_only env shouldTearDown []
    rw [hd]
    exact ⟨by simp, c1, c2, c3, c4⟩
  · intro n f1 k hi hk hle
    obtain ⟨hfalse, hlen⟩ := importLoop_of_failsAt dec k _ f1 hk hle
    obtain ⟨tars, htars⟩ := importLoop_calls dec (iterations (Int.tmod n 30)) f1
    have hd : doFuzz env dec data shouldTearDown =
        ⟨some 0, logBeforeConnect env shouldTearDown ++ [Call.connect none] ++
          tars.map Call.importArchive ++ [Call.close, Call.cancel]⟩ := by
      rw [doFuzz_connected env dec data shouldTearDown hs hc]
      simp [fuzzBody, hi, hfalse, htars]
    have hk1 : tars.length = k - 1 := by
      rw [htars] at hlen
      simp at hlen
      omega
    obtain ⟨c1, c2, c3, c4⟩ := counts_of_import_only env shouldTearDown tars
    rw [hd]
    exact ⟨⟨tars, hk1, rfl⟩, by rw [← hk1]; exact c1, c2, c3, c4⟩

/-- C3, on the empty input: the byte decoder cannot decode the import count,
and `doFuzz` returns 0 after the connection and its `Close`. -/
theorem exhaustion_during_import_witness :
    byteDecoder.getInt (byteDecoder.newConsumer []) = (.error eof, []) ∧
    doFuzz envRunning byteDecoder [] false =
      ⟨some 0, logBeforeConnect envRunning false ++
        [Call.connect none, Call.close, Call.cancel]⟩ ∧
    tarBytesFailsAt byteDecoder 2 [7] = true ∧
    (doFuzz envRunning byteDecoder [3, 7] false).calls.countP Call.isImport = 2 - 1 ∧
    (doFuzz envRunning byteDecoder [3, 7] false).calls.countP Call.isListImages = 0 :=
  ⟨by rfl,
   ((exhaustion_during_import envRunning byteDecoder [] false (by rfl) (by rfl)).1 eof []
     (by rfl)).1,
   by rfl,
   ((exhaustion_during_import envRunning byteDecoder [3, 7] false (by rfl) (by rfl)).2 3 [7] 2
     (by rfl) (by rfl) (by decide)).2.1,
   ((exhaustion_during_import envRunning byteDecoder [3, 7] false (by rfl) (by rfl)).2 3 [7] 2
     (by rfl) (by rfl) (by decide)).2.2.1⟩

/-- C4. When the connection attempt fails with an error whose text contains
"daemon is not running", `doFuzz` returns -1, whatever the input and the
teardown flag are.  The failure makes it attempt the removal of the socket
path exactly once: from the connection attempt on, the log is the failed
attempt, one removal asked of the operating system (the removal that
`checkIfShouldRestart` makes on such an error) and the `cancel`.  No call of
the run is an import, an image listing, a container construction or a
`Close`, nor any other call on a client, an image or a container.  When
`doFuzz` does not start the daemon with the teardown flag on, that removal is
the only one of the whole run. -/
theorem connection_failure_removes_socket {σ : Type} (env : Env) (dec : Decoder σ)
    (data : Bytes) (shouldTearDown : Bool) (e : GoError)
    (hs : (lazyStart env shouldTearDown).1 = false)
    (hc : env.connect (logBeforeConnect env shouldTearDown) = some e)
    (hind : stringsContains e.text "daemon is not running" = true) :
    (doFuzz env dec data shouldTearDown).status = some (-1) ∧
    (doFuzz env dec data shouldTearDown).calls =
      logBeforeConnect env shouldTearDown ++
        [Call.connect (some e),
         Call.removeSocket (env.removeSocket
           (logBeforeConnect env shouldTearDown ++ [Call.connect (some e)])),
         Call.cancel] ∧
    ((doFuzz env dec data shouldTearDown).calls.drop
      (logBeforeConnect env shouldTearDown).length).countP Call.isRemoveSocket = 1 ∧
    (∀ h, (deleteSocket env h).2 = checkIfShouldRestart env h e) ∧
    (∀ c ∈ (doFuzz env dec data shouldTearDown).calls,
      c.isClientSide = false ∧ c.isImport = false ∧ c.isListImages = false ∧
      c.isClientNewContainer = false ∧ c.isNewContainerReturned = false ∧
      c.isDelete = false ∧ c.isClose = false) ∧
    (env.cmdIsNil [Call.testContext] = false ∨ shouldTearDown = false →
      (doFuzz env dec data shouldTearDown).calls.countP Call.isRemoveSocket = 1) := by
  have hcount : (doFuzz env dec data shouldTearDown).calls.countP Call.isRemoveSocket =
      1 + (lazyStart env shouldTearDown).2.countP Call.isRemoveSocket := by
    rw [doFuzz_refused env dec data shouldTearDown e hs hc]
    simp only [logBeforeConnect, List.countP_append, List.countP_cons, List.countP_nil]
    simp [Call.isRemoveSocket]
    omega
  have hside : ∀ c ∈ (doFuzz env dec data shouldTearDown).calls, c.isClientSide = false := by
    rw [doFuzz_refused env dec data shouldTearDown e hs hc]
    intro c hc
    simp only [List.mem_append, List.mem_cons, List.mem_singleton, List.not_mem_nil,
      or_false] at hc
    rcases hc with hc | hc | hc | hc
    · exact logBeforeConnect_calls env shouldTearDown c hc
    · subst hc; rfl
    · subst hc; rfl
    · subst hc; rfl
  refine ⟨?_, ?_, ?_, ?_, ?_, ?_⟩
  · rw [doFuzz_refused env dec data shouldTearDown e hs hc]
  · rw [doFuzz_refused env dec data shouldTearDown e hs hc]
  · rw [doFuzz_refused env dec data shouldTearDown e hs hc]
    simp [Call.isRemoveSocket]
  · intro h
    simp [checkIfShouldRestart, hind]
  · intro c hc
    exact ⟨hside c hc, none_observed_of_not_clientSide c (hside c hc)⟩
  · intro h
    rw [hcount]
    have h0 : (lazyStart env shouldTearDown).2.countP Call.isRemoveSocket = 0 := by
      rw [List.countP_eq_zero]
      intro c hc
      unfold lazyStart at hc
      rcases h with h | h
      · simp [h] at hc
      · subst h
        split at hc
        · simp [startDaemon_false_no_removeSocket env _ c hc]
        · simp at hc
    omega

/-- C4, at a running daemon whose socket refuses the connection with the
indicator text, with the teardown flag on: -1 is returned and the socket path
is removed once. -/
theorem connection_failure_removes_socket_witness :
    stringsContains notRunning.text "daemon is not running" = true ∧
    (doFuzz envDown byteDecoder [1, 2] true).status = some (-1) ∧
    (doFuzz envDown byteDecoder [1, 2] true).calls =
      [Call.testContext, Call.connect (some notRunning), Call.removeSocket none,
       Call.cancel] ∧
    (doFuzz envDown byteDecoder [1, 2] true).calls.countP Call.isRemoveSocket = 1 :=
  ⟨by rfl,
   (connection_failure_removes_socket envDown byteDecoder [1, 2] true notRunning (by rfl)
     (by rfl) (by rfl)).1,
   (connection_failure_removes_socket envDown byteDecoder [1, 2] true notRunning (by rfl)
     (by rfl) (by rfl)).2.1,
   (connection_failure_removes_socket envDown byteDecoder [1, 2] true notRunning (by rfl)
     (by rfl) (by rfl)).2.2.2.2.2 (Or.inl (by rfl))⟩

/-- C5, as the code has it.  `checkIfShouldRestart` removes the socket path
when the error text contains the indicator and does nothing otherwise, but a
connection failure in `doFuzz` does not go through it: for every connection
error, with or without the indicator in its text, `doFuzz` attempts to remove
the socket path right after the failed connection attempt and returns -1. -/
theorem socket_removed_on_every_connection_failure {σ : Type} (env : Env) (dec : Decoder σ)
    (data : Bytes) (shouldTearDown : Bool) (e : GoError)
    (hs : (lazyStart env shouldTearDown).1 = false)
    (hc : env.connect (logBeforeConnect env shouldTearDown) = some e) :
    doFuzz env dec data shouldTearDown =
      ⟨some (-1), logBeforeConnect env shouldTearDown ++
        [Call.connect (some e),
         Call.removeSocket (env.removeSocket
           (logBeforeConnect env shouldTearDown ++ [Call.connect (some e)])),
         Call.cancel]⟩ ∧
    (∃ r, Call.removeSocket r ∈ (doFuzz env dec data shouldTearDown).calls) ∧
    (∀ h, stringsContains e.text "daemon is not running" = false →
      checkIfShouldRestart env h e = []) ∧
    (∀ h, stringsContains e.text "daemon is not running" = true →
      checkIfShouldRestart env h e = [Call.removeSocket (env.removeSocket h)]) := by
  refine ⟨doFuzz_refused env dec data shouldTearDown e hs hc, ?_, ?_, ?_⟩
  · rw [doFuzz_refused env dec data shouldTearDown e hs hc]
    exact ⟨env.removeSocket (logBeforeConnect env shouldTearDown ++ [Call.connect (some e)]),
      by simp⟩
  · intro h hn
    simp [checkIfShouldRestart, hn]
  · intro h hn
    simp [checkIfShouldRestart, hn, deleteSocket]

/-- C5, at a connection refused without the indicator text. -/
theorem socket_removed_on_every_connection_failure_witness :
    doFuzz envRefused byteDecoder [1] false =
      ⟨some (-1), [Call.testContext, Call.connect (some refused), Call.removeSocket none,
        Call.cancel]⟩ :=
  (socket_removed_on_every_connection_failure envRefused byteDecoder [1] false refused (by rfl)
    (by rfl)).1

/-- C5 fails at a connection error without the indicator: the text
"connection refused" does not contain "daemon is not running", and `doFuzz`
still attempts to remove the socket path. -/
theorem socket_removed_without_indicator_counterexample :
    envRefused.connect (logBeforeConnect envRefused false) = some refused ∧
    stringsContains refused.text "daemon is not running" = false ∧
    Call.removeSocket none ∈ (doFuzz envRefused byteDecoder [1] false).calls ∧
    (doFuzz envRefused byteDecoder [1] false).calls.countP Call.isRemoveSocket = 1 := by
  refine ⟨by rfl, by rfl, by decide, by decide⟩

/-- C6. In every run of `doFuzz` that obtains a client connection, the log is
`pre`, then one `Delete` with snapshot cleanup for each container that
`newContainer` returned in `pre` (the latest first) and nothing for a failed
construction, then the `Close` of the connection, then `cancel`.  `pre`
contains every construction attempt and no `Delete` or `Close`, and `Close`
is called exactly once. -/
theorem deletes_between_construction_and_close {σ : Type} (env : Env) (dec : Decoder σ)
    (data : Bytes) (shouldTearDown : Bool)
    (hs : (lazyStart env shouldTearDown).1 = false)
    (hc : env.connect (logBeforeConnect env shouldTearDown) = none) :
    ∃ pre, (doFuzz env dec data shouldTearDown).calls =
        pre ++ (madeContainers pre).reverse.map (fun c => Call.delete c true) ++
          [Call.close, Call.cancel] ∧
      (∀ c ∈ pre, c.isDelete = false ∧ c.isClose = false) ∧
      (madeContainers (doFuzz env dec data shouldTearDown).calls = madeContainers pre) ∧
      (doFuzz env dec data shouldTearDown).calls.countP Call.isClose = 1 := by
  obtain ⟨hdef, hbody⟩ := fuzzBody_deferred env dec (dec.newConsumer data)
    (logBeforeConnect env shouldTearDown ++ [Call.connect none])
  have hlog : ∀ c ∈ logBeforeConnect env shouldTearDown,
      c.isNewContainerReturned = false ∧ c.isDelete = false ∧ c.isClose = false := by
    intro c hc
    exact not_observed_of_not_clientSide c (logBeforeConnect_calls env shouldTearDown c hc)
  have hpre : ∀ c ∈ logBeforeConnect env shouldTearDown ++ [Call.connect none] ++
      (fuzzBody env dec (dec.newConsumer data)
        (logBeforeConnect env shouldTearDown ++ [Call.connect none])).2.1,
      c.isDelete = false ∧ c.isClose = false := by
    intro c hc
    simp only [List.mem_append, List.mem_singleton] at hc
    rcases hc with (hc | hc) | hc
    · exact (hlog c hc).2
    · subst hc; exact ⟨rfl, rfl⟩
    · exact hbody c hc
  have hmade : madeContainers (logBeforeConnect env shouldTearDown ++ [Call.connect none] ++
      (fuzzBody env dec (dec.newConsumer data)
        (logBeforeConnect env shouldTearDown ++ [Call.connect none])).2.1) =
      madeContainers (fuzzBody env dec (dec.newConsumer data)
        (logBeforeConnect env shouldTearDown ++ [Call.connect none])).2.1 := by
    rw [madeContainers_append, madeContainers_append,
      madeContainers_eq_nil _ (fun c hc => (hlog c hc).1)]
    rfl
  have hdel : ∀ cs : List Container,
      madeContainers (cs.map (fun c => Call.delete c true)) = [] := by
    intro cs
    apply madeContainers_eq_nil
    intro c hc
    simp only [List.mem_map] at hc
    obtain ⟨t, -, rfl⟩ := hc
    rfl
  refine ⟨logBeforeConnect env shouldTearDown ++ [Call.connect none] ++
    (fuzzBody env dec (dec.newConsumer data)
      (logBeforeConnect env shouldTearDown ++ [Call.connect none])).2.1, ?_, hpre, ?_, ?_⟩
  · rw [doFuzz_connected env dec data shouldTearDown hs hc, hmade, ← hdef]
  · rw [doFuzz_connected env dec data shouldTearDown hs hc]
    simp only
    rw [madeContainers_append, madeContainers_append _ (List.map _ _), hdel]
    simp [madeContainers]
  · rw [doFuzz_connected env dec data shouldTearDown hs hc]
    simp only
    rw [List.countP_append, List.countP_append,
      countP_deletes_eq_zero _ Call.isClose (fun _ _ => rfl),
      List.countP_eq_zero.mpr (fun c hc => by simp [(hpre c hc).2])]
    rfl

/-- C6, at a run that constructs two containers and fails on a third: the
containers are deleted in reverse order, with snapshot cleanup, before the
connection is closed. -/
theorem deletes_between_construction_and_close_witness :
    (doFuzz envRunning byteDecoder [2, 5, 6, 3, 1, 1, 1, 2, 2, 2, 3, 3] false).calls =
      [Call.testContext, Call.connect none, Call.importArchive [5], Call.importArchive [6],
       Call.listImages (some [⟨0⟩]),
       Call.clientNewContainer (String.mk [Char.ofNat 1]) none (some ⟨[1]⟩) (some ⟨5⟩),
       Call.newContainerReturned (some ⟨5⟩),
       Call.clientNewContainer (String.mk [Char.ofNat 2]) none (some ⟨[2]⟩) (some ⟨7⟩),
       Call.newContainerReturned (some ⟨7⟩),
       Call.newContainerReturned none,
       Call.delete ⟨7⟩ true, Call.delete ⟨5⟩ true, Call.close, Call.cancel] ∧
    ∃ pre, (doFuzz envRunning byteDecoder [2, 5, 6, 3, 1, 1, 1, 2, 2, 2, 3, 3] false).calls =
        pre ++ (madeContainers pre).reverse.map (fun c => Call.delete c true) ++
          [Call.close, Call.cancel] ∧
      (∀ c ∈ pre, c.isDelete = false ∧ c.isClose = false) ∧
      (madeContainers (doFuzz envRunning byteDecoder [2, 5, 6, 3, 1, 1, 1, 2, 2, 2, 3, 3]
        false).calls = madeContainers pre) ∧
      (doFuzz envRunning byteDecoder [2, 5, 6, 3, 1, 1, 1, 2, 2, 2, 3, 3] false).calls.countP
        Call.isClose = 1 :=
  ⟨by rfl,
   deletes_between_construction_and_close envRunning byteDecoder
     [2, 5, 6, 3, 1, 1, 1, 2, 2, 2, 3, 3] false (by rfl) (by rfl)⟩

/-- C8. A first run with the teardown flag on, at a healthy daemon: the whole
teardown (stop, reap, removal of the state root) is made inside
`startDaemon`, before the connection is opened, and nothing follows the
`Close` of the connection but `cancel`.  A run with the flag on at a daemon
that is running already makes no teardown at all. -/
theorem tearDown_runs_before_connect :
    (doFuzz envFresh byteDecoder [0, 0] true).calls =
      [Call.testContext, Call.tempFile none, Call.createShimDebugConfig, Call.start none,
       Call.waitForStart none, Call.waitCancel,
       Call.stop none, Call.wait none, Call.forceRemoveAll none,
       Call.closeFile, Call.removeFile,
       Call.connect none, Call.listImages (some [⟨0⟩]), Call.close, Call.cancel] ∧
    (doFuzz envRunning byteDecoder [0, 0] true).calls =
      [Call.testContext, Call.connect none, Call.listImages (some [⟨0⟩]), Call.close,
       Call.cancel] := by
  constructor <;> rfl

/-- C7. `tearDown` ends either with the state root removed or with an error
returned.  It returns nil exactly when it asked for the recursive removal of
the state root and the operating system reported success.  A `Kill` error
after a failed `Stop` is returned at once.  Otherwise (`Stop` succeeded, or
`Kill` did) the process is reaped: a `Wait` error that is not an exit-status
error is returned without any removal; after a successful `Wait` or an
exit-status error the removal is attempted and its result, nil or the
failure, is what `tearDown` returns. -/
theorem tearDown_nil_iff_root_removed (env : Env) (h : List Call) :
    ((tearDown env h).1 = none ↔
      ∃ pre, (tearDown env h).2 = pre ++ [Call.forceRemoveAll none] ∧
        env.forceRemoveAll (h ++ pre) = none) ∧
    (∀ e0 e, env.stop h = some e0 → env.kill (h ++ [Call.stop (some e0)]) = some e →
      tearDown env h = (some e, [Call.stop (some e0), Call.kill (some e)])) ∧
    (∀ c, (env.stop h = none ∧ c = [Call.stop none]) ∨
        (∃ e0, env.stop h = some e0 ∧ env.kill (h ++ [Call.stop (some e0)]) = none ∧
          c = [Call.stop (some e0), Call.kill none]) →
      (∀ e, env.wait (h ++ c) = some e → e.isExitError = false →
        tearDown env h = (some e, c ++ [Call.wait (some e)])) ∧
      (∀ w, env.wait (h ++ c) = w → (∀ e, w = some e → e.isExitError = true) →
        tearDown env h =
          (env.forceRemoveAll (h ++ (c ++ [Call.wait w])),
           c ++ [Call.wait w,
             Call.forceRemoveAll (env.forceRemoveAll (h ++ (c ++ [Call.wait w])))]))) := by
  have hkill : ∀ e0 e, env.stop h = some e0 → env.kill (h ++ [Call.stop (some e0)]) = some e →
      tearDown env h = (some e, [Call.stop (some e0), Call.kill (some e)]) := by
    intro e0 e hs hk
    simp [tearDown, hs, hk]
  have hfatal : ∀ c, (env.stop h = none ∧ c = [Call.stop none]) ∨
        (∃ e0, env.stop h = some e0 ∧ env.kill (h ++ [Call.stop (some e0)]) = none ∧
          c = [Call.stop (some e0), Call.kill none]) →
      ∀ e, env.wait (h ++ c) = some e → e.isExitError = false →
        tearDown env h = (some e, c ++ [Call.wait (some e)]) := by
    intro c hc e hw hx
    rcases hc with ⟨hs, rfl⟩ | ⟨e0, hs, hk, rfl⟩
    · simp [tearDown, hs, hw, hx]
    · have hw2 : env.wait (h ++ ([Call.stop (some e0)] ++ [Call.kill none])) = some e := hw
      simp [tearDown, hs, hk, hw, hw2, hx]
  have hrm : ∀ c, (env.stop h = none ∧ c = [Call.stop none]) ∨
        (∃ e0, env.stop h = some e0 ∧ env.kill (h ++ [Call.stop (some e0)]) = none ∧
          c = [Call.stop (some e0), Call.kill none]) →
      ∀ w, env.wait (h ++ c) = w → (∀ e, w = some e → e.isExitError = true) →
        tearDown env h =
          (env.forceRemoveAll (h ++ (c ++ [Call.wait w])),
           c ++ [Call.wait w,
             Call.forceRemoveAll (env.forceRemoveAll (h ++ (c ++ [Call.wait w])))]) := by
    intro c hc w hw hx
    subst hw
    rcases hc with ⟨hs, rfl⟩ | ⟨e0, hs, hk, rfl⟩
    · cases hw : env.wait (h ++ [Call.stop none]) with
      | none => simp [tearDown, hs, hw]
      | some e =>
        have := hx e hw
        simp [tearDown, hs, hw, this]
    · cases hw : env.wait (h ++ [Call.stop (some e0), Call.kill none]) with
      | none =>
        have hw2 : env.wait (h ++ ([Call.stop (some e0)] ++ [Call.kill none])) = none := hw
        simp [tearDown, hs, hk, hw, hw2]
      | some e =>
        have hw2 : env.wait (h ++ ([Call.stop (some e0)] ++ [Call.kill none])) = some e := hw
        have := hx e hw
        simp [tearDown, hs, hk, hw, hw2, this]
  refine ⟨?_, hkill, fun c hc => ⟨hfatal c hc, hrm c hc⟩⟩
  -- the first part, by cases on what the daemon and the operating system answer
  have hlast : ∀ (l1 l2 : List Call) (a b : Call), l1 ++ [a] = l2 ++ [b] → l1 = l2 ∧ a = b := by
    intro l1 l2 a b hab
    have := List.append_inj' hab rfl
    exact ⟨this.1, by simpa using this.2⟩
  have hremoved : ∀ c w, tearDown env h =
        (env.forceRemoveAll (h ++ (c ++ [Call.wait w])),
         c ++ [Call.wait w,
           Call.forceRemoveAll (env.forceRemoveAll (h ++ (c ++ [Call.wait w])))]) →
      ((tearDown env h).1 = none ↔
        ∃ pre, (tearDown env h).2 = pre ++ [Call.forceRemoveAll none] ∧
          env.forceRemoveAll (h ++ pre) = none) := by
    intro c w heq
    rw [heq]
    constructor
    · intro hnone
      simp only at hnone
      exact ⟨c ++ [Call.wait w], by simp [hnone], hnone⟩
    · rintro ⟨pre, hlog, -⟩
      have hlog2 : (c ++ [Call.wait w]) ++
          [Call.forceRemoveAll (env.forceRemoveAll (h ++ (c ++ [Call.wait w])))] =
          pre ++ [Call.forceRemoveAll none] := by simpa using hlog
      have := (hlast _ _ _ _ hlog2).2
      simpa using this
  have hnot : ∀ (e : GoError) (c : List Call) (a : Call), (∀ r, a ≠ Call.forceRemoveAll r) →
      tearDown env h = (some e, c ++ [a]) →
      ((tearDown env h).1 = none ↔
        ∃ pre, (tearDown env h).2 = pre ++ [Call.forceRemoveAll none] ∧
          env.forceRemoveAll (h ++ pre) = none) := by
    intro e c a ha heq
    rw [heq]
    constructor
    · intro hnone
      simp at hnone
    · rintro ⟨pre, hlog, -⟩
      exact absurd (hlast _ _ _ _ hlog).2 (ha none)
  cases hs : env.stop h with
  | none =>
    have hc : (env.stop h = none ∧ [Call.stop none] = [Call.stop none]) ∨
        (∃ e0, env.stop h = some e0 ∧ env.kill (h ++ [Call.stop (some e0)]) = none ∧
          [Call.stop none] = [Call.stop (some e0), Call.kill none]) := Or.inl ⟨hs, rfl⟩
    cases hw : env.wait (h ++ [Call.stop none]) with
    | none => exact hremoved _ _ (hrm _ hc none hw (by simp))
    | some e =>
      cases hx : e.isExitError
      · exact hnot e _ _ (by simp) (hfatal _ hc e hw hx)
      · exact hremoved _ _ (hrm _ hc (some e) hw (by simp [hx]))
  | some e0 =>
    cases hk : env.kill (h ++ [Call.stop (some e0)]) with
    | some e => exact hnot e [Call.stop (some e0)] _ (by simp) (hkill e0 e hs hk)
    | none =>
      have hc : (env.stop h = none ∧ [Call.stop (some e0), Call.kill none] = [Call.stop none]) ∨
          (∃ e1, env.stop h = some e1 ∧ env.kill (h ++ [Call.stop (some e1)]) = none ∧
            [Call.stop (some e0), Call.kill none] = [Call.stop (some e1), Call.kill none]) :=
        Or.inr ⟨e0, hs, hk, rfl⟩
      cases hw : env.wait (h ++ [Call.stop (some e0), Call.kill none]) with
      | none => exact hremoved _ _ (hrm _ hc none hw (by simp))
      | some e =>
        cases hx : e.isExitError
        · exact hnot e _ _ (by simp) (hfatal _ hc e hw hx)
        · exact hremoved _ _ (hrm _ hc (some e) hw (by simp [hx]))

/-- C7, at four daemons.  A process that exited with a non-zero status: the
exit-status error of `Wait` is tolerated, the state root is removed and nil is
returned.  A state root that cannot be removed: the failure is returned.  A
daemon without process: the `Kill` error is returned and no removal is
attempted.  A healthy daemon: nil, with the removal as last call. -/
theorem tearDown_nil_iff_root_removed_witness :
    tearDown envExited [] =
      (none, [Call.stop none, Call.wait (some ⟨"exit status 2", true⟩),
        Call.forceRemoveAll none]) ∧
    tearDown envRootBusy [] =
      (some ⟨"device or resource busy", false⟩,
       [Call.stop none, Call.wait none,
        Call.forceRemoveAll (some ⟨"device or resource busy", false⟩)]) ∧
    tearDown envNoProcess [] =
      (some notRunning, [Call.stop (some notRunning), Call.kill (some notRunning)]) ∧
    ((tearDown envRunning []).1 = none ∧
      ∃ pre, (tearDown envRunning []).2 = pre ++ [Call.forceRemoveAll none] ∧
        envRunning.forceRemoveAll ([] ++ pre) = none) :=
  ⟨((tearDown_nil_iff_root_removed envExited []).2.2 [Call.stop none]
      (Or.inl ⟨by rfl, rfl⟩)).2 (some ⟨"exit status 2", true⟩) (by rfl)
      (fun e he => by cases he; rfl),
   ((tearDown_nil_iff_root_removed envRootBusy []).2.2 [Call.stop none]
      (Or.inl ⟨by rfl, rfl⟩)).2 none (by rfl) (fun e he => by cases he),
   (tearDown_nil_iff_root_removed envNoProcess []).2.1 notRunning notRunning (by rfl) (by rfl),
   by rfl,
   (tearDown_nil_iff_root_removed envRunning []).1.1 (by rfl)⟩

/-- C9. Whatever the decoded selector is, when the selector, the identifier
and the specification are decoded, `newContainer` makes exactly one call:
`client.NewContainer` with the identifier and `WithSpec` of the generated
specification, without `WithImage`.  It returns the container or the error of
that call unchanged and never panics, and it makes no `ListImages`, `Size`,
`IsUnpacked` or `Unpack` call. -/
theorem newContainer_spec_only {σ : Type} (env : Env) (dec : Decoder σ) (f f1 f2 f3 : σ)
    (h : List Call) (determiner : Int) (id : String) (spec : Spec)
    (hint : dec.getInt f = (.ok determiner, f1))
    (hid : dec.getString f1 = (.ok id, f2))
    (hspec : dec.generateStruct f2 = (.ok spec, f3)) :
    (newContainer env dec f h).2.2 =
      [Call.clientNewContainer id none (some spec) (okOf (env.newContainer h id none (some spec)))] ∧
    (newContainer env dec f h).2.1 = f3 ∧
    (∀ c, env.newContainer h id none (some spec) = .ok c →
      (newContainer env dec f h).1 = Res.ok c) ∧
    (∀ e, env.newContainer h id none (some spec) = .error e →
      (newContainer env dec f h).1 = Res.err e) ∧
    (∀ c ∈ (newContainer env dec f h).2.2, ∀ image,
      c ≠ Call.listImages image ∧ ∀ i, c ≠ Call.imageSize i ∧ c ≠ Call.isUnpacked i ∧
        c ≠ Call.unpack i) := by
  rw [newContainer_eq_first_branch]
  simp only [hint, hid, hspec]
  refine ⟨trivial, trivial, ?_, ?_, ?_⟩
  · intro c hc
    rw [hc]; rfl
  · intro e he
    rw [he]; rfl
  · intro c hc image
    simp only [List.mem_singleton] at hc
    subst hc
    simp

/-- C9, at the selectors 3 and 255 with two images listed: the container is
made from the identifier and the specification alone, and no image is
consulted. -/
theorem newContainer_spec_only_witness :
    byteDecoder.getInt [3, 7, 9] = (.ok 3, [7, 9]) ∧
    (newContainer envTwoImages byteDecoder [3, 7, 9] []).2.2 =
      [Call.clientNewContainer (String.mk [Char.ofNat 7]) none (some ⟨[9]⟩) (some ⟨0⟩)] ∧
    (newContainer envTwoImages byteDecoder [255, 7, 9] []).2.2 =
      [Call.clientNewContainer (String.mk [Char.ofNat 7]) none (some ⟨[9]⟩) (some ⟨0⟩)] :=
  ⟨by rfl,
   (newContainer_spec_only envTwoImages byteDecoder [3, 7, 9] [7, 9] [9] [] [] 3
     (String.mk [Char.ofNat 7]) ⟨[9]⟩ (by rfl) (by rfl) (by rfl)).1,
   (newContainer_spec_only envTwoImages byteDecoder [255, 7, 9] [7, 9] [9] [] [] 255
     (String.mk [Char.ofNat 7]) ⟨[9]⟩ (by rfl) (by rfl) (by rfl)).1⟩

end ContainerFuzzer
